import Mathlib

/-!
# LibreCAD: arc entity and the line-angle options panel

A shallow embedding of

* `librecad/src/lib/engine/document/entities/rs_arc.h` (the inline members of
  `RS_ArcData` / `RS_Arc`), and
* `librecad/src/ui/action_options/line/qg_lineangleoptions.cpp`,

followed by theorems about them.  The C++ `double` is an arbitrary scalar type
`α`; the arithmetic the code uses is demanded from `α` through type classes, so
every statement holds for the real numbers and the definitions still evaluate
over the rationals or the integers.
-/

namespace LibreCAD

/-! ## Vectors -/

/-- Modelled from the spec: RS_Vector, whose header is not among the sources.
Section 3 of the spec describes it as an `(x, y)` pair of scalars supporting
addition and polar construction. -/
structure RS_Vector (α : Type) where
  x : α
  y : α
deriving DecidableEq, Repr

/-- Componentwise sum, `RS_Vector::operator +`. -/
instance instAddRSVector {α : Type} [Add α] : Add (RS_Vector α) :=
  ⟨fun v w => ⟨v.x + w.x, v.y + w.y⟩⟩

/-- Modelled from the spec: RS_Vector::polar, the polar construction
`(rho * cos theta, rho * sin theta)`.  The cosine and sine of the scalar type
are parameters. -/
def RS_Vector.polar {α : Type} [Mul α] (cos sin : α → α) (rho theta : α) : RS_Vector α :=
  ⟨rho * cos theta, rho * sin theta⟩

/-- Componentwise difference, `RS_Vector::operator -`. -/
instance instSubRSVector {α : Type} [Sub α] : Sub (RS_Vector α) :=
  ⟨fun v w => ⟨v.x - w.x, v.y - w.y⟩⟩

/-- Modelled from the spec: RS_Vector::angle, the angle-to-origin of section 3,
whose body is not among the sources: the direction of the vector measured from
the positive x axis and normalised to `[0, twoPi)` (the angle normalisation of
section 2).  The two-argument arctangent of the scalar type, with values in
`(-twoPi / 2, twoPi / 2]`, is a parameter. -/
def RS_Vector.angle {α : Type} [Zero α] [Add α] [LT α] [DecidableRel (fun a b : α => a < b)]
    (atan2 : α → α → α) (twoPi : α) (v : RS_Vector α) : α :=
  if atan2 v.y v.x < 0 then atan2 v.y v.x + twoPi else atan2 v.y v.x

/-! ## `RS_ArcData` and `RS_Arc` (rs_arc.h) -/

/-- The struct `RS_ArcData` of rs_arc.h, lines 38-60: the five defining fields
and the three values cached for `draw()`. -/
structure RS_ArcData (α : Type) where
  center : RS_Vector α
  radius : α
  angle1 : α
  angle2 : α
  reversed : Bool
  startAngleDegrees : α
  otherAngleDegrees : α
  angularLength : α
deriving DecidableEq, Repr

/-- The data members of class `RS_Arc` (rs_arc.h, lines 275-281): the protected
`data` and the three private cached points. -/
structure RS_Arc (α : Type) where
  data : RS_ArcData α
  middlePoint : RS_Vector α
  m_startPoint : RS_Vector α
  m_endPoint : RS_Vector α
deriving DecidableEq, Repr

namespace RS_Arc

variable {α : Type}

/-- Member `RS_Arc::getData`: `return data;`. -/
def getData (arc : RS_Arc α) : RS_ArcData α := arc.data

/-- Member `RS_Arc::setData`: `data = d;` and nothing else. -/
def setData (d : RS_ArcData α) (arc : RS_Arc α) : RS_Arc α :=
  { arc with data := d }

/-- Member `RS_Arc::getCenter`: `return data.center;`. -/
def getCenter (arc : RS_Arc α) : RS_Vector α := arc.data.center

/-- Member `RS_Arc::getRadius`: `return data.radius;`. -/
def getRadius (arc : RS_Arc α) : α := arc.data.radius

/-- Member `RS_Arc::getAngle1`: `return data.angle1;`. -/
def getAngle1 (arc : RS_Arc α) : α := arc.data.angle1

/-- Member `RS_Arc::getAngle2`: `return data.angle2;`. -/
def getAngle2 (arc : RS_Arc α) : α := arc.data.angle2

/-- Member `RS_Arc::isReversed`: `return data.reversed;`. -/
def isReversed (arc : RS_Arc α) : Bool := arc.data.reversed

/-- Member `RS_Arc::getArcAngle`: `return (vp - data.center).angle();`. -/
def getArcAngle [Zero α] [Add α] [Sub α] [LT α] [DecidableRel (fun a b : α => a < b)]
    (atan2 : α → α → α) (twoPi : α) (arc : RS_Arc α) (vp : RS_Vector α) : α :=
  (vp - arc.data.center).angle atan2 twoPi

/-- Member `RS_Arc::getPointAtParameter`:
`return getCenter() + RS_Vector::polar(getRadius(), angle);`. -/
def getPointAtParameter [Add α] [Mul α] (cos sin : α → α) (arc : RS_Arc α) (angle : α) :
    RS_Vector α :=
  arc.getCenter + RS_Vector.polar cos sin arc.getRadius angle

end RS_Arc

/-! ### Members of `RS_Arc` that rs_arc.h only declares -/

/-- The helpers behind the refresh of the cached values whose bodies are not
among the sources: cosine and sine (for `RS_Vector::polar`), the conversion of
an angle to degrees, and the middle point computed by `updateMiddlePoint` from
the five defining fields. -/
structure RS_ArcOps (α : Type) where
  cos : α → α
  sin : α → α
  toDegrees : α → α
  middle : RS_Vector α → α → α → α → Bool → RS_Vector α

namespace RS_Arc

variable {α : Type}

/-- Modelled from the spec: RS_Arc::getAngleLength, declared in rs_arc.h with
no body.  The glossary calls the angular length the sweep of the arc from
angle1 to angle2; it is taken along the direction of the arc, so a reversed
(clockwise) arc sweeps from angle1 down to angle2. -/
def getAngleLength [Sub α] (arc : RS_Arc α) : α :=
  if arc.data.reversed then arc.data.angle1 - arc.data.angle2
  else arc.data.angle2 - arc.data.angle1

/-- Modelled from the spec: the single recomputation entry point of section 4.1
(updatePaintingInfo / updateMiddlePoint, declared in rs_arc.h with no body).
It rewrites every cached value from the five defining fields: the start and end
points are `center + polar(radius, angle1)` and `center + polar(radius, angle2)`
(section 8), the cached angles are the start and the other angle in degrees, the
cached angular length is the sweep. -/
def refreshCaches [Add α] [Sub α] [Mul α] (ops : RS_ArcOps α) (arc : RS_Arc α) :
    RS_Arc α :=
  let d := arc.data
  { data :=
      { d with
        startAngleDegrees := ops.toDegrees d.angle1
        otherAngleDegrees := ops.toDegrees d.angle2
        angularLength := arc.getAngleLength }
    middlePoint := ops.middle d.center d.radius d.angle1 d.angle2 d.reversed
    m_startPoint := d.center + RS_Vector.polar ops.cos ops.sin d.radius d.angle1
    m_endPoint := d.center + RS_Vector.polar ops.cos ops.sin d.radius d.angle2 }

/-- Modelled from the spec: RS_Arc::setCenter, declared in rs_arc.h with no
body.  Section 3: a mutator stores the new value and the cached values are
recomputed. -/
def setCenter [Add α] [Sub α] [Mul α] (ops : RS_ArcOps α) (c : RS_Vector α) (arc : RS_Arc α) :
    RS_Arc α :=
  refreshCaches ops { arc with data := { arc.data with center := c } }

/-- Modelled from the spec: RS_Arc::setRadius, declared in rs_arc.h with no
body; stores the radius and recomputes the cached values. -/
def setRadius [Add α] [Sub α] [Mul α] (ops : RS_ArcOps α) (r : α) (arc : RS_Arc α) :
    RS_Arc α :=
  refreshCaches ops { arc with data := { arc.data with radius := r } }

/-- Modelled from the spec: RS_Arc::setAngle1, declared in rs_arc.h with no
body; stores the start angle and recomputes the cached values. -/
def setAngle1 [Add α] [Sub α] [Mul α] (ops : RS_ArcOps α) (a1 : α) (arc : RS_Arc α) :
    RS_Arc α :=
  refreshCaches ops { arc with data := { arc.data with angle1 := a1 } }

/-- Modelled from the spec: RS_Arc::setAngle2, declared in rs_arc.h with no
body; stores the end angle and recomputes the cached values. -/
def setAngle2 [Add α] [Sub α] [Mul α] (ops : RS_ArcOps α) (a2 : α) (arc : RS_Arc α) :
    RS_Arc α :=
  refreshCaches ops { arc with data := { arc.data with angle2 := a2 } }

/-- Modelled from the spec: RS_Arc::setReversed, declared in rs_arc.h with no
body; stores the flag and recomputes the cached values. -/
def setReversed [Add α] [Sub α] [Mul α] (ops : RS_ArcOps α) (r : Bool) (arc : RS_Arc α) :
    RS_Arc α :=
  refreshCaches ops { arc with data := { arc.data with reversed := r } }

end RS_Arc

/-- Modelled from the spec: the normalisation of a sweep to the half-open range
`(0, twoPi]` that the glossary and section 3 attach to the angular length: the
value congruent to `s` modulo `twoPi` that lies in that range. -/
def normalizeSweep {α : Type} [LinearOrderedField α] [FloorRing α] (twoPi s : α) : α :=
  s - twoPi * ((⌈s / twoPi⌉ : ℤ) - 1 : ℤ)

/-- Modelled from the spec: RS_Arc::correctAngles, declared in rs_arc.h with the
comment "make sure angleLength() is not more than 2*M_PI" and no body.  The
start angle is kept, the end angle is moved by whole turns until the sweep from
angle1 to angle2 is the normalised one, and the cached values are recomputed. -/
def RS_Arc.correctAngles {α : Type} [LinearOrderedField α] [FloorRing α]
    (ops : RS_ArcOps α) (twoPi : α) (arc : RS_Arc α) : RS_Arc α :=
  let len := normalizeSweep twoPi arc.getAngleLength
  let a2 := if arc.data.reversed then arc.data.angle1 - len else arc.data.angle1 + len
  RS_Arc.refreshCaches ops { arc with data := { arc.data with angle2 := a2 } }

/-! ## The line-angle options panel (qg_lineangleoptions.cpp) -/

/-- Modelled from the spec: RS2::ActionType, whose declaring header is not among
the sources.  The enumerators that qg_lineangleoptions.cpp names are kept by
name; `other` stands for every remaining enumerator. -/
inductive RS2.ActionType where
  | ActionNone
  | ActionDrawLineAngle
  | ActionDrawLineHorizontal
  | ActionDrawLineVertical
  | other (code : Nat)
deriving DecidableEq, Repr

/-- A call of one of the setters of the action, as kept in its call history. -/
inductive ActionCall (α : Type) where
  | setUcsAngleDegrees (a : α)
  | setInAngleBasis (b : Bool)
  | setSnapPoint (n : Int)
  | setLength (l : α)
deriving DecidableEq, Repr

/-- Modelled from the spec: RS_ActionDrawLineAngle, whose header is not among
the sources.  Section 4.2.3 gives its contract: the queries `hasFixedAngle`,
`isInAngleBasis`, `getUcsAngleDegrees`, `getLength`, `getSnapPoint`,
`hasNonDefaultAnglesBasis` and the matching setters.  `calls` is the history of
the setter calls received, oldest first. -/
structure RS_ActionDrawLineAngle (α : Type) where
  fixedAngle : Bool
  nonDefaultAnglesBasis : Bool
  inAngleBasis : Bool
  ucsAngleDegrees : α
  length : α
  snapPoint : Int
  calls : List (ActionCall α)
deriving DecidableEq, Repr

namespace RS_ActionDrawLineAngle

variable {α : Type}

/-- Query `hasFixedAngle()`. -/
def hasFixedAngle (a : RS_ActionDrawLineAngle α) : Bool := a.fixedAngle

/-- Query `hasNonDefaultAnglesBasis()`. -/
def hasNonDefaultAnglesBasis (a : RS_ActionDrawLineAngle α) : Bool := a.nonDefaultAnglesBasis

/-- Query `isInAngleBasis()`. -/
def isInAngleBasis (a : RS_ActionDrawLineAngle α) : Bool := a.inAngleBasis

/-- Query `getUcsAngleDegrees()`. -/
def getUcsAngleDegrees (a : RS_ActionDrawLineAngle α) : α := a.ucsAngleDegrees

/-- Query `getLength()`. -/
def getLength (a : RS_ActionDrawLineAngle α) : α := a.length

/-- Query `getSnapPoint()`. -/
def getSnapPoint (a : RS_ActionDrawLineAngle α) : Int := a.snapPoint

/-- Setter `setUcsAngleDegrees(angle)`. -/
def setUcsAngleDegrees (angle : α) (a : RS_ActionDrawLineAngle α) : RS_ActionDrawLineAngle α :=
  { a with ucsAngleDegrees := angle, calls := a.calls ++ [ActionCall.setUcsAngleDegrees angle] }

/-- Setter `setInAngleBasis(b)`. -/
def setInAngleBasis (b : Bool) (a : RS_ActionDrawLineAngle α) : RS_ActionDrawLineAngle α :=
  { a with inAngleBasis := b, calls := a.calls ++ [ActionCall.setInAngleBasis b] }

/-- Setter `setSnapPoint(n)`. -/
def setSnapPoint (n : Int) (a : RS_ActionDrawLineAngle α) : RS_ActionDrawLineAngle α :=
  { a with snapPoint := n, calls := a.calls ++ [ActionCall.setSnapPoint n] }

/-- Setter `setLength(l)`. -/
def setLength (l : α) (a : RS_ActionDrawLineAngle α) : RS_ActionDrawLineAngle α :=
  { a with length := l, calls := a.calls ++ [ActionCall.setLength l] }

end RS_ActionDrawLineAngle

/-- A value kept in the settings store: the three overloads of `save` used by
the panel store a string, a flag or an integer. -/
inductive SettingValue where
  | str (s : String)
  | bool (b : Bool)
  | int (n : Int)
deriving DecidableEq, Repr

/-- Modelled from the spec: the persisted settings behind `load` / `save` of the
base class LC_ActionOptionsWidgetBase, which is not among the sources.  Section
6: values are keyed by string names and a load has a fallback default; a load
returns the value saved last under its key. -/
structure SettingsStore where
  entries : List (String × SettingValue)
deriving DecidableEq, Repr

namespace SettingsStore

/-- The store with nothing saved. -/
def empty : SettingsStore := ⟨[]⟩

/-- The value saved last under `key`, if any. -/
def find (s : SettingsStore) (key : String) : Option SettingValue :=
  s.entries.lookup key

/-- Saving replaces what was kept under `key`. -/
def save (s : SettingsStore) (key : String) (v : SettingValue) : SettingsStore :=
  ⟨(key, v) :: s.entries.filter (fun e => e.1 != key)⟩

/-- Base-class `load(key, fallback)` evaluated on the store. -/
def load (s : SettingsStore) (key fallback : String) : String :=
  match s.find key with
  | some (SettingValue.str v) => v
  | _ => fallback

/-- Base-class `loadBool(key, fallback)` evaluated on the store. -/
def loadBool (s : SettingsStore) (key : String) (fallback : Bool) : Bool :=
  match s.find key with
  | some (SettingValue.bool v) => v
  | _ => fallback

/-- Base-class `loadInt(key, fallback)` evaluated on the store. -/
def loadInt (s : SettingsStore) (key : String) (fallback : Int) : Int :=
  match s.find key with
  | some (SettingValue.int v) => v
  | _ => fallback

end SettingsStore

/-- The conversion helpers of the base class that the panel calls and whose
bodies are not among the sources.  `toDouble val res notMeaningful positiveOnly`
and `toDoubleAngleDegrees` with the same arguments return the C++ result flag
together with the value left in the reference argument `res`; `fromDouble`
formats a number for a text field. -/
structure LC_ConvertHelpers (α : Type) where
  toDouble : String → α → α → Bool → Bool × α
  toDoubleAngleDegrees : String → α → α → Bool → Bool × α
  fromDouble : α → String

/-- The widgets of `Ui::Ui_LineAngleOptions` that the panel touches, each
reduced to the properties the code reads or writes.  The two setters whose
change signal the constructor connects to a slot of the panel (the index of
`cbSnapPoint`, line 41, and the check state of `cbForAnglesBasis`, line 42)
deliver that slot, see `cbSnapPoint_setCurrentIndex` and
`cbForAnglesBasis_setChecked`; `setText` and `setVisible` emit nothing that is
connected and only store.  The item list of `cbSnapPoint` comes from the form
file, which is not among the sources: an index is stored as it is given. -/
structure Ui_LineAngleOptions where
  leAngle_text : String
  leAngle_visible : Bool
  lAngle_visible : Bool
  leLength_text : String
  cbSnapPoint_currentIndex : Int
  cbForAnglesBasis_checked : Bool
  cbForAnglesBasis_visible : Bool
deriving DecidableEq, Repr

/-- The state the member functions of `QG_LineAngleOptions` work on: the action
behind the pointer `m_action`, the widgets behind `ui`, the persisted settings,
and the histories of the keys loaded and saved, oldest first. -/
structure QG_LineAngleOptions (α : Type) where
  m_action : RS_ActionDrawLineAngle α
  ui : Ui_LineAngleOptions
  settings : SettingsStore
  keysRead : List String
  keysWritten : List String
deriving DecidableEq, Repr

namespace QG_LineAngleOptions

variable {α : Type}

/-- Member `QG_LineAngleOptions::checkActionRttiValid` (lines 58-62). -/
def checkActionRttiValid (actionType : RS2.ActionType) : Bool :=
  actionType == RS2.ActionType.ActionDrawLineAngle ||
  actionType == RS2.ActionType.ActionDrawLineHorizontal ||
  actionType == RS2.ActionType.ActionDrawLineVertical

/-- State reached by running a member function from `w`. -/
def exec (m : StateM (QG_LineAngleOptions α) Unit) (w : QG_LineAngleOptions α) :
    QG_LineAngleOptions α :=
  (m.run w).2

/-- Base-class `load(key, fallback)`. -/
def load (key fallback : String) : StateM (QG_LineAngleOptions α) String := do
  let w ← get
  set { w with keysRead := w.keysRead ++ [key] }
  return w.settings.load key fallback

/-- Base-class `loadBool(key, fallback)`. -/
def loadBool (key : String) (fallback : Bool) : StateM (QG_LineAngleOptions α) Bool := do
  let w ← get
  set { w with keysRead := w.keysRead ++ [key] }
  return w.settings.loadBool key fallback

/-- Base-class `loadInt(key, fallback)`. -/
def loadInt (key : String) (fallback : Int) : StateM (QG_LineAngleOptions α) Int := do
  let w ← get
  set { w with keysRead := w.keysRead ++ [key] }
  return w.settings.loadInt key fallback

/-- Base-class `save(key, value)`. -/
def save (key : String) (v : SettingValue) : StateM (QG_LineAngleOptions α) Unit :=
  modify fun w =>
    { w with settings := w.settings.save key v, keysWritten := w.keysWritten ++ [key] }

/-- Member `QG_LineAngleOptions::setAngleToActionAndView` (lines 137-143). -/
def setAngleToActionAndView [Zero α] (h : LC_ConvertHelpers α) (val : String) :
    StateM (QG_LineAngleOptions α) Unit := do
  let angle0 : α := 0
  let (ok, angle) := h.toDoubleAngleDegrees val angle0 0 false
  if ok then
    modify fun w => { w with m_action := w.m_action.setUcsAngleDegrees angle }
    modify fun w => { w with ui := { w.ui with leAngle_text := h.fromDouble angle } }

/-- Toolkit call `ui->cbSnapPoint->setCurrentIndex(val)`: when the box shows
another index, the new one is stored and `currentIndexChanged(val)` is emitted,
which runs `slot`, the member connected in the constructor (line 41); when the
box already shows `val` nothing happens. -/
def cbSnapPoint_setCurrentIndex (slot : Int → StateM (QG_LineAngleOptions α) Unit) (val : Int) :
    StateM (QG_LineAngleOptions α) Unit := do
  if (← get).ui.cbSnapPoint_currentIndex != val then
    modify fun w => { w with ui := { w.ui with cbSnapPoint_currentIndex := val } }
    slot val

/-- Toolkit call `ui->cbForAnglesBasis->setChecked(val)`: when the box is in the
other state, the new one is stored and `toggled(val)` is emitted, which runs
`slot`, the member connected in the constructor (line 42); when the box is
already in state `val` nothing happens. -/
def cbForAnglesBasis_setChecked (slot : Bool → StateM (QG_LineAngleOptions α) Unit)
    (val : Bool) : StateM (QG_LineAngleOptions α) Unit := do
  if (← get).ui.cbForAnglesBasis_checked != val then
    modify fun w => { w with ui := { w.ui with cbForAnglesBasis_checked := val } }
    slot val

/-- Body of `QG_LineAngleOptions::setSnapPointToActionAndView` (lines 145-148) at a
given nesting depth.  `setCurrentIndex` may emit `currentIndexChanged`, whose slot
`onSnapPointCurrentIndexChanged` (lines 122-124) calls this member again; the
first argument bounds how deep such calls may nest, and depth 0 does nothing. -/
def setSnapPointToActionAndViewAt :
    Nat → Int → StateM (QG_LineAngleOptions α) Unit
  | 0, _ => pure ()
  | depth + 1, val => do
    modify fun w => { w with m_action := w.m_action.setSnapPoint val }
    cbSnapPoint_setCurrentIndex (setSnapPointToActionAndViewAt depth) val

/-- Member `QG_LineAngleOptions::setSnapPointToActionAndView` (lines 145-148).  Two
levels of nesting are all the program uses: the slot runs when the box already
shows `val`, so its own `setCurrentIndex` emits nothing (any greater depth gives
the same result, `setSnapPointToActionAndViewAt_depth`). -/
def setSnapPointToActionAndView (val : Int) : StateM (QG_LineAngleOptions α) Unit :=
  setSnapPointToActionAndViewAt 2 val

/-- Member `QG_LineAngleOptions::setLengthToActionAndView` (lines 150-156). -/
def setLengthToActionAndView [Zero α] [One α] (h : LC_ConvertHelpers α) (val : String) :
    StateM (QG_LineAngleOptions α) Unit := do
  let len0 : α := 0
  let (ok, len) := h.toDouble val len0 1 false
  if ok then
    modify fun w => { w with m_action := w.m_action.setLength len }
    modify fun w => { w with ui := { w.ui with leLength_text := h.fromDouble len } }

/-- Body of `QG_LineAngleOptions::setToAngleBasis` (lines 158-161) at a given
nesting depth.  `setChecked` may emit `toggled`, whose slot
`onAnglesBasisToggled` (lines 133-135) calls this member again; the first
argument bounds how deep such calls may nest, and depth 0 does nothing. -/
def setToAngleBasisAt : Nat → Bool → StateM (QG_LineAngleOptions α) Unit
  | 0, _ => pure ()
  | depth + 1, val => do
    cbForAnglesBasis_setChecked (setToAngleBasisAt depth) val
    modify fun w => { w with m_action := w.m_action.setInAngleBasis val }

/-- Member `QG_LineAngleOptions::setToAngleBasis` (lines 158-161).  Two levels of
nesting are all the program uses: the slot runs when the box is already in state
`val`, so its own `setChecked` emits nothing (any greater depth gives the same
result, `setToAngleBasisAt_depth`). -/
def setToAngleBasis (val : Bool) : StateM (QG_LineAngleOptions α) Unit :=
  setToAngleBasisAt 2 val

/-- Member `QG_LineAngleOptions::doSetAction` (lines 64-109).  The cast of the argument
to the action class is taken to succeed; `snapPoint`, which the C++ leaves
uninitialised until one of the two branches assigns it, starts at 0. -/
def doSetAction [Zero α] [One α] (h : LC_ConvertHelpers α) (a : RS_ActionDrawLineAngle α)
    (update : Bool) : StateM (QG_LineAngleOptions α) Unit := do
  modify fun w => { w with m_action := a }
  let angleIsFixed := (← get).m_action.hasFixedAngle
  let mut angle : String := ""
  let mut length : String := ""
  let mut snapPoint : Int := 0
  let mut inAngleBasis : Bool := false
  if update then
    if angleIsFixed then
      inAngleBasis := (← get).m_action.isInAngleBasis
    else
      angle := h.fromDouble (← get).m_action.getUcsAngleDegrees
    length := h.fromDouble (← get).m_action.getLength
    snapPoint := (← get).m_action.getSnapPoint
  else
    if angleIsFixed then
      inAngleBasis ← loadBool "InAnglesBasis" false
    else
      angle ← load "Angle" "30.0"
    length ← load "Length" "10.0"
    snapPoint ← loadInt "SnapPoint" 0
  modify fun w => { w with ui := { w.ui with leAngle_visible := !angleIsFixed } }
  modify fun w => { w with ui := { w.ui with lAngle_visible := !angleIsFixed } }
  let hasCustomAnglesBasis := (← get).m_action.hasNonDefaultAnglesBasis
  if angleIsFixed then
    modify fun w => { w with ui := { w.ui with cbForAnglesBasis_visible := hasCustomAnglesBasis } }
    setToAngleBasis inAngleBasis
  else
    setAngleToActionAndView h angle
    modify fun w => { w with ui := { w.ui with cbForAnglesBasis_visible := false } }
  setSnapPointToActionAndView snapPoint
  setLengthToActionAndView h length
  modify fun w => { w with ui := { w.ui with leAngle_text := angle } }
  modify fun w => { w with ui := { w.ui with leLength_text := length } }

/-- Member `QG_LineAngleOptions::doSaveSettings` (lines 111-120). -/
def doSaveSettings : StateM (QG_LineAngleOptions α) Unit := do
  if (← get).m_action.hasFixedAngle then
    save "InAnglesBasis" (SettingValue.bool (← get).ui.cbForAnglesBasis_checked)
  else
    save "Angle" (SettingValue.str (← get).ui.leAngle_text)
  save "Length" (SettingValue.str (← get).ui.leLength_text)
  save "SnapPoint" (SettingValue.int (← get).ui.cbSnapPoint_currentIndex)

/-- Member `QG_LineAngleOptions::onSnapPointCurrentIndexChanged` (lines 122-124). -/
def onSnapPointCurrentIndexChanged (number : Int) : StateM (QG_LineAngleOptions α) Unit :=
  setSnapPointToActionAndView number

/-- Member `QG_LineAngleOptions::onLengthEditingFinished` (lines 126-128). -/
def onLengthEditingFinished [Zero α] [One α] (h : LC_ConvertHelpers α) :
    StateM (QG_LineAngleOptions α) Unit := do
  setLengthToActionAndView h (← get).ui.leLength_text

/-- Member `QG_LineAngleOptions::onAngleEditingFinished` (lines 129-131). -/
def onAngleEditingFinished [Zero α] (h : LC_ConvertHelpers α) :
    StateM (QG_LineAngleOptions α) Unit := do
  setAngleToActionAndView h (← get).ui.leAngle_text

/-- Member `QG_LineAngleOptions::onAnglesBasisToggled` (lines 133-135). -/
def onAnglesBasisToggled (val : Bool) : StateM (QG_LineAngleOptions α) Unit :=
  setToAngleBasis val

end QG_LineAngleOptions

/-! ### A concrete instance used to evaluate the panel -/

/-- A conversion helper over the integers: it accepts exactly the texts "10.0"
and "30.0" and leaves the reference argument alone otherwise. -/
def sampleHelpers : LC_ConvertHelpers Int where
  toDouble := fun s res _ _ =>
    if s = "10.0" then (true, 10) else if s = "30.0" then (true, 30) else (false, res)
  toDoubleAngleDegrees := fun s res _ _ =>
    if s = "10.0" then (true, 10) else if s = "30.0" then (true, 30) else (false, res)
  fromDouble := fun n => if n = 10 then "10" else if n = 30 then "30" else "?"

/-- An action drawing at a free angle, with angle 45, length 7 and snap point 1. -/
def sampleFreeAction : RS_ActionDrawLineAngle Int :=
  ⟨false, false, false, 45, 7, 1, []⟩

/-- An action drawing at a fixed angle (horizontal or vertical line). -/
def sampleFixedAction : RS_ActionDrawLineAngle Int :=
  ⟨true, true, false, 0, 7, 1, []⟩

/-- A panel showing angle "45", length "7" and snap point 1, with nothing saved. -/
def samplePanel : QG_LineAngleOptions Int :=
  ⟨sampleFreeAction, ⟨"45", true, true, "7", 1, false, false⟩, SettingsStore.empty, [], []⟩

/-- The sample panel holding the fixed-angle action, its basis box checked. -/
def sampleFixedPanel : QG_LineAngleOptions Int :=
  ⟨sampleFixedAction, ⟨"", false, false, "7", 1, true, true⟩, SettingsStore.empty, [], []⟩

/-- The sample panel over a store whose "Length" entry is the text "abc". -/
def malformedLengthPanel : QG_LineAngleOptions Int :=
  { samplePanel with settings := SettingsStore.empty.save "Length" (SettingValue.str "abc") }

/-- The sample panel over a store whose "Angle" entry is the text "abc". -/
def malformedAnglePanel : QG_LineAngleOptions Int :=
  { samplePanel with settings := SettingsStore.empty.save "Angle" (SettingValue.str "abc") }

/-- A default-constructed arc: every field and every cached point is zero. -/
def defaultArc (α : Type) [Zero α] : RS_Arc α :=
  ⟨⟨⟨0, 0⟩, 0, 0, 0, false, 0, 0, 0⟩, ⟨0, 0⟩, ⟨0, 0⟩, ⟨0, 0⟩⟩

/-- Arc data for the unit circle around `(1, 0)`, starting and ending at angle 0. -/
def unitArcData (α : Type) [Zero α] [One α] : RS_ArcData α :=
  ⟨⟨1, 0⟩, 1, 0, 0, false, 0, 0, 0⟩

/-- Cache helpers built from a cosine, a sine and the number of degrees in one
radian, with the centre standing in for the middle point. -/
def sampleArcOps {α : Type} [Mul α] (cos sin : α → α) (degreesPerRadian : α) : RS_ArcOps α :=
  ⟨cos, sin, fun a => a * degreesPerRadian, fun c _ _ _ _ => c⟩

/-! ## Theorems: the arc entity -/

/-- C1: for every arc and every angle `a`, `getPointAtParameter(a)` is
`getCenter() + polar(getRadius(), a)`, that is
`(center.x + radius * cos a, center.y + radius * sin a)`; there is no test of `a`
against `angle1` or `angle2`, and any other arc with the same centre and radius
(whatever its angles, its direction and its cached values) returns the same
point. -/
theorem getPointAtParameter_eq_center_add_polar {α : Type} [Add α] [Mul α]
    (cos sin : α → α) (arc : RS_Arc α) (a : α) :
    arc.getPointAtParameter cos sin a
        = arc.getCenter + RS_Vector.polar cos sin arc.getRadius a
    ∧ arc.getPointAtParameter cos sin a
        = ⟨arc.data.center.x + arc.data.radius * cos a,
           arc.data.center.y + arc.data.radius * sin a⟩
    ∧ ∀ other : RS_Arc α, other.data.center = arc.data.center →
        other.data.radius = arc.data.radius →
        other.getPointAtParameter cos sin a = arc.getPointAtParameter cos sin a := by
  refine ⟨rfl, rfl, ?_⟩
  intro other hc hr
  simp only [RS_Arc.getPointAtParameter, RS_Arc.getCenter, RS_Arc.getRadius, hc, hr]

/-- Witness for C1: a reversed half arc and a full arc on the unit circle around
the origin return the same point at angle 5, which lies outside the half arc. -/
theorem getPointAtParameter_eq_center_add_polar_witness :
    RS_Arc.getPointAtParameter Real.cos Real.sin
        (⟨⟨⟨0, 0⟩, 1, 0, 3, true, 0, 0, 0⟩, ⟨1, 1⟩, ⟨1, 0⟩, ⟨0, 1⟩⟩ : RS_Arc ℝ) 5
      = RS_Arc.getPointAtParameter Real.cos Real.sin
        (⟨⟨⟨0, 0⟩, 1, 0, 6, false, 0, 0, 0⟩, ⟨0, 0⟩, ⟨0, 0⟩, ⟨0, 0⟩⟩ : RS_Arc ℝ) 5 :=
  (getPointAtParameter_eq_center_add_polar Real.cos Real.sin
    (⟨⟨⟨0, 0⟩, 1, 0, 6, false, 0, 0, 0⟩, ⟨0, 0⟩, ⟨0, 0⟩, ⟨0, 0⟩⟩ : RS_Arc ℝ) 5).2.2
    ⟨⟨⟨0, 0⟩, 1, 0, 3, true, 0, 0, 0⟩, ⟨1, 1⟩, ⟨1, 0⟩, ⟨0, 1⟩⟩ rfl rfl

/-- C2, as stated, fails: on a default-constructed real arc, `setData` with the
unit circle around `(1, 0)` leaves the cached start point at `(0, 0)`, while
`d.center + polar(d.radius, d.angle1)` is `(2, 0)`. -/
theorem setData_start_point_stale :
    (RS_Arc.setData (unitArcData ℝ) (defaultArc ℝ)).m_startPoint
      ≠ (unitArcData ℝ).center
          + RS_Vector.polar Real.cos Real.sin (unitArcData ℝ).radius (unitArcData ℝ).angle1 := by
  intro h
  have hx := congrArg RS_Vector.x h
  have h2 : (0 : ℝ) = 1 + 1 * Real.cos 0 := hx
  rw [Real.cos_zero] at h2
  norm_num at h2

/-- C2, amended: `setData(d)` stores `d`, so that `getData()` returns it, and
leaves the three cached points exactly as they were; after the call a cached
start or end point agrees with `d` precisely when the value cached before the
call already did. -/
theorem setData_stores_data_keeps_caches {α : Type} [Add α] [Mul α] (cos sin : α → α)
    (arc : RS_Arc α) (d : RS_ArcData α) :
    (arc.setData d).getData = d
    ∧ (arc.setData d).m_startPoint = arc.m_startPoint
    ∧ (arc.setData d).m_endPoint = arc.m_endPoint
    ∧ (arc.setData d).middlePoint = arc.middlePoint
    ∧ ((arc.setData d).m_startPoint = d.center + RS_Vector.polar cos sin d.radius d.angle1
        ↔ arc.m_startPoint = d.center + RS_Vector.polar cos sin d.radius d.angle1)
    ∧ ((arc.setData d).m_endPoint = d.center + RS_Vector.polar cos sin d.radius d.angle2
        ↔ arc.m_endPoint = d.center + RS_Vector.polar cos sin d.radius d.angle2) :=
  ⟨rfl, rfl, rfl, rfl, Iff.rfl, Iff.rfl⟩

/-- C3: each setter followed by its getter returns the value that was set:
`setCenter(c); getCenter() == c`, and the same for the radius, the two angles
and the reversed flag. -/
theorem setter_getter_round_trip {α : Type} [Add α] [Sub α] [Mul α] (ops : RS_ArcOps α)
    (arc : RS_Arc α) (c : RS_Vector α) (r a1 a2 : α) (b : Bool) :
    (arc.setCenter ops c).getCenter = c
    ∧ (arc.setRadius ops r).getRadius = r
    ∧ (arc.setAngle1 ops a1).getAngle1 = a1
    ∧ (arc.setAngle2 ops a2).getAngle2 = a2
    ∧ (arc.setReversed ops b).isReversed = b :=
  ⟨rfl, rfl, rfl, rfl, rfl⟩

/-- The normalised sweep is positive. -/
theorem normalizeSweep_pos {α : Type} [LinearOrderedField α] [FloorRing α] {twoPi : α}
    (h : 0 < twoPi) (s : α) : 0 < normalizeSweep twoPi s := by
  have hk : ((⌈s / twoPi⌉ : ℤ) : α) - 1 < s / twoPi := by
    have := Int.ceil_lt_add_one (s / twoPi)
    linarith
  have hm : twoPi * (((⌈s / twoPi⌉ : ℤ) : α) - 1) < s := by
    have := (lt_div_iff₀ h).1 hk
    linarith [mul_comm twoPi (((⌈s / twoPi⌉ : ℤ) : α) - 1)]
  unfold normalizeSweep
  push_cast
  linarith

/-- The normalised sweep is at most one full turn. -/
theorem normalizeSweep_le {α : Type} [LinearOrderedField α] [FloorRing α] {twoPi : α}
    (h : 0 < twoPi) (s : α) : normalizeSweep twoPi s ≤ twoPi := by
  have hk : s / twoPi ≤ ((⌈s / twoPi⌉ : ℤ) : α) := Int.le_ceil _
  have hm : s ≤ twoPi * ((⌈s / twoPi⌉ : ℤ) : α) := by
    have := (div_le_iff₀ h).1 hk
    linarith [mul_comm twoPi ((⌈s / twoPi⌉ : ℤ) : α)]
  unfold normalizeSweep
  push_cast
  linarith

/-- A sweep that already lies in `(0, twoPi]` is its own normal form. -/
theorem normalizeSweep_of_mem {α : Type} [LinearOrderedField α] [FloorRing α] {twoPi s : α}
    (h : 0 < twoPi) (h0 : 0 < s) (h1 : s ≤ twoPi) : normalizeSweep twoPi s = s := by
  have hc : (⌈s / twoPi⌉ : ℤ) = 1 := by
    rw [Int.ceil_eq_iff]
    constructor
    · simpa using div_pos h0 h
    · simpa using (div_le_one h).2 h1
  unfold normalizeSweep
  rw [hc]
  simp

/-- After `correctAngles` the sweep from angle1 to angle2 is the normalised
sweep of the arc it was applied to. -/
theorem getAngleLength_correctAngles {α : Type} [LinearOrderedField α] [FloorRing α]
    (ops : RS_ArcOps α) (twoPi : α) (arc : RS_Arc α) :
    (arc.correctAngles ops twoPi).getAngleLength = normalizeSweep twoPi arc.getAngleLength := by
  cases hr : arc.data.reversed <;>
    simp [RS_Arc.correctAngles, RS_Arc.refreshCaches, RS_Arc.getAngleLength, hr]

/-- C4: `correctAngles()` is idempotent and normalising.  A second application
leaves angle1, angle2 and the cached angular length (indeed the whole arc) as
the first one left them, and after an application the angular length, cached or
computed, lies in `(0, twoPi]`; `twoPi` is any positive period, `2 * π` over the
reals. -/
theorem correctAngles_idempotent_normalising {α : Type} [LinearOrderedField α] [FloorRing α]
    (ops : RS_ArcOps α) (twoPi : α) (h : 0 < twoPi) (arc : RS_Arc α) :
    ((arc.correctAngles ops twoPi).correctAngles ops twoPi).data.angle1
        = (arc.correctAngles ops twoPi).data.angle1
    ∧ ((arc.correctAngles ops twoPi).correctAngles ops twoPi).data.angle2
        = (arc.correctAngles ops twoPi).data.angle2
    ∧ ((arc.correctAngles ops twoPi).correctAngles ops twoPi).data.angularLength
        = (arc.correctAngles ops twoPi).data.angularLength
    ∧ (arc.correctAngles ops twoPi).correctAngles ops twoPi = arc.correctAngles ops twoPi
    ∧ 0 < (arc.correctAngles ops twoPi).data.angularLength
    ∧ (arc.correctAngles ops twoPi).data.angularLength ≤ twoPi
    ∧ 0 < (arc.correctAngles ops twoPi).getAngleLength
    ∧ (arc.correctAngles ops twoPi).getAngleLength ≤ twoPi := by
  have hlen := getAngleLength_correctAngles ops twoPi arc
  have hpos := normalizeSweep_pos h arc.getAngleLength
  have hle := normalizeSweep_le h arc.getAngleLength
  have hcache : (arc.correctAngles ops twoPi).data.angularLength
      = (arc.correctAngles ops twoPi).getAngleLength := by
    cases hr : arc.data.reversed <;>
      simp [RS_Arc.correctAngles, RS_Arc.refreshCaches, RS_Arc.getAngleLength, hr]
  have hfix : normalizeSweep twoPi (arc.correctAngles ops twoPi).getAngleLength
      = normalizeSweep twoPi arc.getAngleLength := by
    rw [hlen]
    exact normalizeSweep_of_mem h hpos hle
  have hidem : (arc.correctAngles ops twoPi).correctAngles ops twoPi
      = arc.correctAngles ops twoPi := by
    have hstep : ∀ x : RS_Arc α, x.correctAngles ops twoPi
        = RS_Arc.refreshCaches ops
            { x with data := { x.data with angle2 :=
                if x.data.reversed then x.data.angle1 - normalizeSweep twoPi x.getAngleLength
                else x.data.angle1 + normalizeSweep twoPi x.getAngleLength } } := fun _ => rfl
    rw [hstep (arc.correctAngles ops twoPi), hfix]
    cases hr : arc.data.reversed <;>
      simp [RS_Arc.correctAngles, RS_Arc.refreshCaches, RS_Arc.getAngleLength, hr]
  refine ⟨?_, ?_, ?_, hidem, ?_, ?_, ?_, ?_⟩
  · rw [hidem]
  · rw [hidem]
  · rw [hidem]
  · rw [hcache, hlen]; exact hpos
  · rw [hcache, hlen]; exact hle
  · rw [hlen]; exact hpos
  · rw [hlen]; exact hle

/-- Witness for C4: over the reals with the period `2 * π`, at the default arc,
whose two angles coincide and whose corrected sweep is therefore a full turn. -/
theorem correctAngles_idempotent_normalising_witness :
    0 < 2 * Real.pi
    ∧ ((defaultArc ℝ).correctAngles (sampleArcOps Real.cos Real.sin (180 / Real.pi))
          (2 * Real.pi)).correctAngles (sampleArcOps Real.cos Real.sin (180 / Real.pi))
          (2 * Real.pi)
        = (defaultArc ℝ).correctAngles (sampleArcOps Real.cos Real.sin (180 / Real.pi))
            (2 * Real.pi)
    ∧ 0 < ((defaultArc ℝ).correctAngles (sampleArcOps Real.cos Real.sin (180 / Real.pi))
            (2 * Real.pi)).data.angularLength
    ∧ ((defaultArc ℝ).correctAngles (sampleArcOps Real.cos Real.sin (180 / Real.pi))
          (2 * Real.pi)).data.angularLength ≤ 2 * Real.pi :=
  have hp : (0 : ℝ) < 2 * Real.pi := mul_pos two_pos Real.pi_pos
  have hw := correctAngles_idempotent_normalising
    (sampleArcOps Real.cos Real.sin (180 / Real.pi)) (2 * Real.pi) hp (defaultArc ℝ)
  ⟨hp, hw.2.2.2.1, hw.2.2.2.2.1, hw.2.2.2.2.2.1⟩

/-! ## Theorems: the arc angle of a point -/

/-- Over the reals the modelled vector angle lies in `[0, 2 * π)`. -/
theorem angle_mem_range (v : RS_Vector ℝ) :
    0 ≤ v.angle (fun y x => Complex.arg ⟨x, y⟩) (2 * Real.pi)
    ∧ v.angle (fun y x => Complex.arg ⟨x, y⟩) (2 * Real.pi) < 2 * Real.pi := by
  have h1 := Complex.neg_pi_lt_arg ⟨v.x, v.y⟩
  have h2 := Complex.arg_le_pi ⟨v.x, v.y⟩
  have hpi := Real.pi_pos
  unfold RS_Vector.angle
  split_ifs with h
  · constructor <;> linarith
  · constructor
    · exact not_lt.1 h
    · linarith

/-- The modelled vector angle has the cosine and the sine of the argument of
`x + y i`. -/
theorem cos_sin_angle (v : RS_Vector ℝ) :
    Real.cos (v.angle (fun y x => Complex.arg ⟨x, y⟩) (2 * Real.pi))
        = Real.cos (Complex.arg ⟨v.x, v.y⟩)
    ∧ Real.sin (v.angle (fun y x => Complex.arg ⟨x, y⟩) (2 * Real.pi))
        = Real.sin (Complex.arg ⟨v.x, v.y⟩) := by
  unfold RS_Vector.angle
  split_ifs with h
  · exact ⟨Real.cos_add_two_pi _, Real.sin_add_two_pi _⟩
  · exact ⟨rfl, rfl⟩

/-- The modelled angle of `polar(r, a)` with `r > 0` differs from `a` by a whole
number of turns. -/
theorem angle_polar (r a : ℝ) (hr : 0 < r) :
    ∃ k : ℤ, (RS_Vector.polar Real.cos Real.sin r a).angle (fun y x => Complex.arg ⟨x, y⟩)
        (2 * Real.pi) = a + k * (2 * Real.pi) := by
  have hz : (⟨r * Real.cos a, r * Real.sin a⟩ : ℂ)
      = (r : ℂ) * (Complex.cos a + Complex.sin a * Complex.I) := by
    apply Complex.ext <;> simp [← Complex.ofReal_cos, ← Complex.ofReal_sin]
  have harg := Complex.arg_mul_cos_add_sin_mul_I_sub hr a
  rw [← hz] at harg
  unfold RS_Vector.angle RS_Vector.polar
  split_ifs with h
  · refine ⟨⌊(Real.pi - a) / (2 * Real.pi)⌋ + 1, ?_⟩
    push_cast
    linarith
  · refine ⟨⌊(Real.pi - a) / (2 * Real.pi)⌋, ?_⟩
    linarith

/-- The vector from the centre to the point at parameter `a` is `polar(r, a)`. -/
theorem getPointAtParameter_sub_center (arc : RS_Arc ℝ) (a : ℝ) :
    arc.getPointAtParameter Real.cos Real.sin a - arc.data.center
      = RS_Vector.polar Real.cos Real.sin arc.data.radius a := by
  show (⟨arc.data.center.x + arc.data.radius * Real.cos a - arc.data.center.x,
      arc.data.center.y + arc.data.radius * Real.sin a - arc.data.center.y⟩ : RS_Vector ℝ)
    = ⟨arc.data.radius * Real.cos a, arc.data.radius * Real.sin a⟩
  rw [add_sub_cancel_left, add_sub_cancel_left]

/-- C11: over the reals, with the vector angle taken in `[0, 2 * π)`:
for an arc of positive radius and every angle `a`,
`getArcAngle(getPointAtParameter(a))` is `a` plus a whole number of turns, and is
`a` itself when `a` lies in `[0, 2 * π)`; any arc with the same centre and radius
(whatever its angles and direction) gives the same value.  For a point `p` other
than the centre, `getPointAtParameter(getArcAngle(p))` is the centre plus a
positive multiple of `p - center`, at distance `radius` from the centre. -/
theorem getArcAngle_inverts_getPointAtParameter (arc : RS_Arc ℝ) (hr : 0 < arc.data.radius)
    (a : ℝ) (p : RS_Vector ℝ) (hp : p ≠ arc.data.center) :
    (∃ k : ℤ,
        arc.getArcAngle (fun y x => Complex.arg ⟨x, y⟩) (2 * Real.pi)
            (arc.getPointAtParameter Real.cos Real.sin a)
          = a + k * (2 * Real.pi))
    ∧ (0 ≤ a → a < 2 * Real.pi →
        arc.getArcAngle (fun y x => Complex.arg ⟨x, y⟩) (2 * Real.pi)
            (arc.getPointAtParameter Real.cos Real.sin a) = a)
    ∧ (∀ other : RS_Arc ℝ, other.data.center = arc.data.center →
        other.data.radius = arc.data.radius →
        other.getArcAngle (fun y x => Complex.arg ⟨x, y⟩) (2 * Real.pi)
            (other.getPointAtParameter Real.cos Real.sin a)
          = arc.getArcAngle (fun y x => Complex.arg ⟨x, y⟩) (2 * Real.pi)
              (arc.getPointAtParameter Real.cos Real.sin a))
    ∧ (∃ s : ℝ, 0 < s
        ∧ arc.getPointAtParameter Real.cos Real.sin
              (arc.getArcAngle (fun y x => Complex.arg ⟨x, y⟩) (2 * Real.pi) p)
            = arc.data.center
              + ⟨s * (p.x - arc.data.center.x), s * (p.y - arc.data.center.y)⟩
        ∧ ((arc.getPointAtParameter Real.cos Real.sin
              (arc.getArcAngle (fun y x => Complex.arg ⟨x, y⟩) (2 * Real.pi) p)).x
            - arc.data.center.x) ^ 2
          + ((arc.getPointAtParameter Real.cos Real.sin
              (arc.getArcAngle (fun y x => Complex.arg ⟨x, y⟩) (2 * Real.pi) p)).y
            - arc.data.center.y) ^ 2
          = arc.data.radius ^ 2) := by
  have hround : arc.getArcAngle (fun y x => Complex.arg ⟨x, y⟩) (2 * Real.pi)
      (arc.getPointAtParameter Real.cos Real.sin a)
      = (RS_Vector.polar Real.cos Real.sin arc.data.radius a).angle
          (fun y x => Complex.arg ⟨x, y⟩) (2 * Real.pi) := by
    unfold RS_Arc.getArcAngle
    rw [getPointAtParameter_sub_center]
  obtain ⟨k, hk⟩ := angle_polar arc.data.radius a hr
  have hrange := angle_mem_range (RS_Vector.polar Real.cos Real.sin arc.data.radius a)
  have hpi := Real.pi_pos
  refine ⟨⟨k, by rw [hround, hk]⟩, ?_, ?_, ?_⟩
  · intro h0 h1
    rw [hround]
    rw [hk] at hrange ⊢
    have hk0 : k = 0 := by
      have hlt : (k : ℝ) * (2 * Real.pi) < 1 * (2 * Real.pi) := by linarith [hrange.2]
      have hgt : (-1 : ℝ) * (2 * Real.pi) < (k : ℝ) * (2 * Real.pi) := by linarith [hrange.1]
      have h2pi : (0 : ℝ) < 2 * Real.pi := by linarith
      have hk1 : (k : ℝ) < 1 := lt_of_mul_lt_mul_right hlt h2pi.le
      have hk2 : (-1 : ℝ) < (k : ℝ) := lt_of_mul_lt_mul_right hgt h2pi.le
      have hk1z : k < 1 := by exact_mod_cast hk1
      have hk2z : -1 < k := by exact_mod_cast hk2
      omega
    rw [hk0]
    simp
  · intro other hc hrad
    simp only [RS_Arc.getArcAngle, RS_Arc.getPointAtParameter, RS_Arc.getCenter,
      RS_Arc.getRadius, hc, hrad]
  · have hz : (⟨p.x - arc.data.center.x, p.y - arc.data.center.y⟩ : ℂ) ≠ 0 := by
      intro h
      apply hp
      have hx : p.x - arc.data.center.x = 0 := congrArg Complex.re h
      have hy : p.y - arc.data.center.y = 0 := congrArg Complex.im h
      cases p with
      | mk px py =>
        cases hcen : arc.data.center with
        | mk cx cy =>
          rw [hcen] at hx hy
          have hx2 : px = cx := by linarith
          have hy2 : py = cy := by linarith
          rw [hx2, hy2]
    have habs : 0 < Complex.abs ⟨p.x - arc.data.center.x, p.y - arc.data.center.y⟩ :=
      Complex.abs.pos hz
    have hcs := cos_sin_angle (p - arc.data.center)
    have hcos : Real.cos (arc.getArcAngle (fun y x => Complex.arg ⟨x, y⟩) (2 * Real.pi) p)
        = (p.x - arc.data.center.x)
          / Complex.abs ⟨p.x - arc.data.center.x, p.y - arc.data.center.y⟩ := by
      unfold RS_Arc.getArcAngle
      rw [hcs.1]
      exact Complex.cos_arg hz
    have hsin : Real.sin (arc.getArcAngle (fun y x => Complex.arg ⟨x, y⟩) (2 * Real.pi) p)
        = (p.y - arc.data.center.y)
          / Complex.abs ⟨p.x - arc.data.center.x, p.y - arc.data.center.y⟩ := by
      unfold RS_Arc.getArcAngle
      rw [hcs.2]
      exact Complex.sin_arg _
    refine ⟨arc.data.radius
        / Complex.abs ⟨p.x - arc.data.center.x, p.y - arc.data.center.y⟩,
      div_pos hr habs, ?_, ?_⟩
    · show (⟨arc.data.center.x + arc.data.radius * Real.cos _,
          arc.data.center.y + arc.data.radius * Real.sin _⟩ : RS_Vector ℝ)
        = ⟨arc.data.center.x + _, arc.data.center.y + _⟩
      rw [hcos, hsin]
      congr 1 <;> ring
    · show (arc.data.center.x + arc.data.radius * Real.cos _ - arc.data.center.x) ^ 2
          + (arc.data.center.y + arc.data.radius * Real.sin _ - arc.data.center.y) ^ 2
        = arc.data.radius ^ 2
      have hone := Real.cos_sq_add_sin_sq
        (arc.getArcAngle (fun y x => Complex.arg ⟨x, y⟩) (2 * Real.pi) p)
      rw [add_sub_cancel_left, add_sub_cancel_left, mul_pow, mul_pow, ← mul_add, hone, mul_one]

/-- Witness for C11: on the unit circle around `(1, 0)` the angle 1 is returned
unchanged, also by a reversed arc with other angles on the same circle; `(3, 0)`
is the point handed in as `p`. -/
theorem getArcAngle_inverts_getPointAtParameter_witness :
    RS_Arc.getArcAngle (fun y x => Complex.arg ⟨x, y⟩) (2 * Real.pi)
        (RS_Arc.setData (unitArcData ℝ) (defaultArc ℝ))
        (RS_Arc.getPointAtParameter Real.cos Real.sin
          (RS_Arc.setData (unitArcData ℝ) (defaultArc ℝ)) 1) = 1
    ∧ RS_Arc.getArcAngle (fun y x => Complex.arg ⟨x, y⟩) (2 * Real.pi)
        (⟨⟨⟨1, 0⟩, 1, 2, 5, true, 0, 0, 0⟩, ⟨0, 0⟩, ⟨0, 0⟩, ⟨0, 0⟩⟩ : RS_Arc ℝ)
        (RS_Arc.getPointAtParameter Real.cos Real.sin
          (⟨⟨⟨1, 0⟩, 1, 2, 5, true, 0, 0, 0⟩, ⟨0, 0⟩, ⟨0, 0⟩, ⟨0, 0⟩⟩ : RS_Arc ℝ) 1)
      = RS_Arc.getArcAngle (fun y x => Complex.arg ⟨x, y⟩) (2 * Real.pi)
        (RS_Arc.setData (unitArcData ℝ) (defaultArc ℝ))
        (RS_Arc.getPointAtParameter Real.cos Real.sin
          (RS_Arc.setData (unitArcData ℝ) (defaultArc ℝ)) 1) :=
  have hw := getArcAngle_inverts_getPointAtParameter
    (RS_Arc.setData (unitArcData ℝ) (defaultArc ℝ)) (show (0 : ℝ) < 1 from one_pos) 1 ⟨3, 0⟩
    (fun h => by
      have hx : (3 : ℝ) = 1 := congrArg RS_Vector.x h
      norm_num at hx)
  ⟨hw.2.1 zero_le_one (by linarith [Real.pi_gt_three]),
   hw.2.2.1 ⟨⟨⟨1, 0⟩, 1, 2, 5, true, 0, 0, 0⟩, ⟨0, 0⟩, ⟨0, 0⟩, ⟨0, 0⟩⟩ rfl rfl⟩

/-! ## Theorems: the line-angle options panel -/

/-- Looking up a key other than the one filtered out ignores the filter. -/
theorem lookup_filter_ne (key other : String) (hne : other ≠ key)
    (l : List (String × SettingValue)) :
    (l.filter (fun e => e.1 != key)).lookup other = l.lookup other := by
  induction l with
  | nil => rfl
  | cons e l ih =>
    obtain ⟨k, v⟩ := e
    by_cases hk : k = key
    · subst hk
      have hb : (other == k) = false := by simpa using hne
      simp [List.filter, List.lookup, hb, ih]
    · have hk2 : (k != key) = true := by simpa using hk
      by_cases ho : other = k
      · subst ho
        simp [List.filter, hk2, List.lookup]
      · have hb : (other == k) = false := by simpa using ho
        simp [List.filter, hk2, List.lookup, hb, ih]

/-- A load finds the value saved last under its key. -/
theorem SettingsStore.find_save_same (s : SettingsStore) (key : String) (v : SettingValue) :
    (s.save key v).find key = some v := by
  simp [SettingsStore.find, SettingsStore.save, List.lookup]

/-- Saving under one key leaves what is kept under the other keys. -/
theorem SettingsStore.find_save_other (s : SettingsStore) (key other : String)
    (v : SettingValue) (hne : other ≠ key) :
    (s.save key v).find other = s.find other := by
  have hb : (other == key) = false := by simpa using hne
  simp [SettingsStore.find, SettingsStore.save, List.lookup, hb, lookup_filter_ne key other hne]


namespace QG_LineAngleOptions

variable {α : Type}

/-- Closed form of `setAngleToActionAndView`. -/
theorem run_setAngleToActionAndView [Zero α] (h : LC_ConvertHelpers α) (val : String)
    (w : QG_LineAngleOptions α) :
    setAngleToActionAndView h val w
      = (PUnit.unit,
          if (h.toDoubleAngleDegrees val 0 0 false).1 then
            { w with
              m_action := w.m_action.setUcsAngleDegrees (h.toDoubleAngleDegrees val 0 0 false).2
              ui := { w.ui with
                      leAngle_text := h.fromDouble (h.toDoubleAngleDegrees val 0 0 false).2 } }
          else w) := by
  unfold setAngleToActionAndView
  cases hh : h.toDoubleAngleDegrees val 0 0 false with
  | mk ok angle =>
    cases ok <;>
      simp [hh, modify, modifyGet, MonadStateOf.modifyGet, StateT.modifyGet, bind,
        StateT.bind, pure, StateT.pure]

/-- Closed form of `setLengthToActionAndView`. -/
theorem run_setLengthToActionAndView [Zero α] [One α] (h : LC_ConvertHelpers α) (val : String)
    (w : QG_LineAngleOptions α) :
    setLengthToActionAndView h val w
      = (PUnit.unit,
          if (h.toDouble val 0 1 false).1 then
            { w with
              m_action := w.m_action.setLength (h.toDouble val 0 1 false).2
              ui := { w.ui with leLength_text := h.fromDouble (h.toDouble val 0 1 false).2 } }
          else w) := by
  unfold setLengthToActionAndView
  cases hh : h.toDouble val 0 1 false with
  | mk ok len =>
    cases ok <;>
      simp [hh, modify, modifyGet, MonadStateOf.modifyGet, StateT.modifyGet, bind,
        StateT.bind, pure, StateT.pure]

/-- Closed form of `setSnapPointToActionAndViewAt` at depth `d + 2`: one call of
`setSnapPoint` when the box already shows `val`, and a second one, made by the
slot, when it does not. -/
theorem run_setSnapPointToActionAndViewAt (d : Nat) (val : Int) (w : QG_LineAngleOptions α) :
    setSnapPointToActionAndViewAt (d + 2) val w
      = (PUnit.unit,
          if w.ui.cbSnapPoint_currentIndex = val then
            { w with m_action := w.m_action.setSnapPoint val }
          else
            { w with
              m_action := (w.m_action.setSnapPoint val).setSnapPoint val
              ui := { w.ui with cbSnapPoint_currentIndex := val } }) := by
  by_cases hv : w.ui.cbSnapPoint_currentIndex = val <;>
    simp [setSnapPointToActionAndViewAt, cbSnapPoint_setCurrentIndex, hv, modify, modifyGet,
      MonadStateOf.modifyGet, StateT.modifyGet, bind, StateT.bind, pure, StateT.pure, get,
      getThe, MonadStateOf.get, StateT.get]

/-- Nesting deeper than two levels changes nothing in `setSnapPointToActionAndView`. -/
theorem setSnapPointToActionAndViewAt_depth (d : Nat) (val : Int) (w : QG_LineAngleOptions α) :
    setSnapPointToActionAndViewAt (d + 2) val w = setSnapPointToActionAndView val w := by
  unfold setSnapPointToActionAndView
  rw [run_setSnapPointToActionAndViewAt d, run_setSnapPointToActionAndViewAt 0]

/-- Closed form of `setToAngleBasisAt` at depth `d + 2`: one call of
`setInAngleBasis` when the box is already in state `val`, and one more, made by
the slot, when it is not. -/
theorem run_setToAngleBasisAt (d : Nat) (val : Bool) (w : QG_LineAngleOptions α) :
    setToAngleBasisAt (d + 2) val w
      = (PUnit.unit,
          if w.ui.cbForAnglesBasis_checked = val then
            { w with m_action := w.m_action.setInAngleBasis val }
          else
            { w with
              m_action := (w.m_action.setInAngleBasis val).setInAngleBasis val
              ui := { w.ui with cbForAnglesBasis_checked := val } }) := by
  by_cases hv : w.ui.cbForAnglesBasis_checked = val <;>
    simp [setToAngleBasisAt, cbForAnglesBasis_setChecked, hv, modify, modifyGet,
      MonadStateOf.modifyGet, StateT.modifyGet, bind, StateT.bind, pure, StateT.pure, get,
      getThe, MonadStateOf.get, StateT.get]

/-- Nesting deeper than two levels changes nothing in `setToAngleBasis`. -/
theorem setToAngleBasisAt_depth (d : Nat) (val : Bool) (w : QG_LineAngleOptions α) :
    setToAngleBasisAt (d + 2) val w = setToAngleBasis val w := by
  unfold setToAngleBasis
  rw [run_setToAngleBasisAt d, run_setToAngleBasisAt 0]

/-- Closed form of `doSetAction`: the values of the four locals, the action after
the three pushes, the widgets, and the keys read. -/
theorem exec_doSetAction [Zero α] [One α] (h : LC_ConvertHelpers α)
    (a : RS_ActionDrawLineAngle α) (update : Bool) (w : QG_LineAngleOptions α) :
    exec (doSetAction h a update) w
      = (let angle := if a.fixedAngle then "" else
                        if update then h.fromDouble a.ucsAngleDegrees
                        else w.settings.load "Angle" "30.0"
         let inAngleBasis := if a.fixedAngle then
                               (if update then a.inAngleBasis
                                else w.settings.loadBool "InAnglesBasis" false)
                             else false
         let length := if update then h.fromDouble a.length else w.settings.load "Length" "10.0"
         let snapPoint := if update then a.snapPoint else w.settings.loadInt "SnapPoint" 0
         let a1 := if a.fixedAngle then
                     (if w.ui.cbForAnglesBasis_checked = inAngleBasis then
                        a.setInAngleBasis inAngleBasis
                      else (a.setInAngleBasis inAngleBasis).setInAngleBasis inAngleBasis)
                   else if (h.toDoubleAngleDegrees angle 0 0 false).1 then
                     a.setUcsAngleDegrees (h.toDoubleAngleDegrees angle 0 0 false).2
                   else a
         let a2 := if w.ui.cbSnapPoint_currentIndex = snapPoint then a1.setSnapPoint snapPoint
                   else (a1.setSnapPoint snapPoint).setSnapPoint snapPoint
         let a3 := if (h.toDouble length 0 1 false).1 then
                     a2.setLength (h.toDouble length 0 1 false).2
                   else a2
         { m_action := a3
           ui := { leAngle_text := angle
                   leAngle_visible := !a.fixedAngle
                   lAngle_visible := !a.fixedAngle
                   leLength_text := length
                   cbSnapPoint_currentIndex := snapPoint
                   cbForAnglesBasis_checked :=
                     if a.fixedAngle then inAngleBasis else w.ui.cbForAnglesBasis_checked
                   cbForAnglesBasis_visible :=
                     if a.fixedAngle then a.nonDefaultAnglesBasis else false }
           settings := w.settings
           keysRead := w.keysRead ++
             (if update then []
              else [if a.fixedAngle then "InAnglesBasis" else "Angle", "Length", "SnapPoint"])
           keysWritten := w.keysWritten }) := by
  unfold exec doSetAction
  cases update <;> cases hf : a.fixedAngle <;>
    simp [StateT.run, modify, modifyGet, MonadStateOf.modifyGet, StateT.modifyGet, bind,
      StateT.bind, pure, StateT.pure, get, getThe, MonadStateOf.get, StateT.get, set, StateT.set,
      RS_ActionDrawLineAngle.hasFixedAngle, RS_ActionDrawLineAngle.isInAngleBasis,
      RS_ActionDrawLineAngle.getUcsAngleDegrees, RS_ActionDrawLineAngle.getLength,
      RS_ActionDrawLineAngle.getSnapPoint, RS_ActionDrawLineAngle.hasNonDefaultAnglesBasis,
      hf, load, loadInt, loadBool, setSnapPointToActionAndView, setToAngleBasis,
      run_setSnapPointToActionAndViewAt 0, run_setToAngleBasisAt 0,
      run_setAngleToActionAndView, run_setLengthToActionAndView]
  all_goals (split_ifs <;> simp_all)

/-- Closed form of `doSaveSettings`. -/
theorem exec_doSaveSettings (w : QG_LineAngleOptions α) :
    exec doSaveSettings w
      = { w with
          settings :=
            ((w.settings.save (if w.m_action.fixedAngle then "InAnglesBasis" else "Angle")
                (if w.m_action.fixedAngle then SettingValue.bool w.ui.cbForAnglesBasis_checked
                 else SettingValue.str w.ui.leAngle_text)).save
              "Length" (SettingValue.str w.ui.leLength_text)).save
              "SnapPoint" (SettingValue.int w.ui.cbSnapPoint_currentIndex)
          keysWritten := w.keysWritten ++
            [if w.m_action.fixedAngle then "InAnglesBasis" else "Angle", "Length", "SnapPoint"] } := by
  unfold exec doSaveSettings
  cases hf : w.m_action.fixedAngle <;>
    simp [StateT.run, modify, modifyGet, MonadStateOf.modifyGet, StateT.modifyGet, bind,
      StateT.bind, pure, StateT.pure, get, getThe, MonadStateOf.get, StateT.get,
      RS_ActionDrawLineAngle.hasFixedAngle, hf, save]

/-- What `doSetAction(a, false)` reads and hands to the action without
conversion: the three keys, the snap point, and the basis flag of a fixed-angle
action. -/
theorem doSetAction_loads_fields [Zero α] [One α] (h : LC_ConvertHelpers α)
    (a : RS_ActionDrawLineAngle α) (w : QG_LineAngleOptions α) :
    (exec (doSetAction h a false) w).keysRead
        = w.keysRead ++ [if a.fixedAngle then "InAnglesBasis" else "Angle", "Length", "SnapPoint"]
    ∧ (exec (doSetAction h a false) w).m_action.snapPoint = w.settings.loadInt "SnapPoint" 0
    ∧ (a.fixedAngle = true →
        (exec (doSetAction h a false) w).m_action.inAngleBasis
          = w.settings.loadBool "InAnglesBasis" false) := by
  refine ⟨?_, ?_, ?_⟩
  all_goals
    cases hf : a.fixedAngle <;>
      simp [exec_doSetAction, hf, RS_ActionDrawLineAngle.setUcsAngleDegrees,
        RS_ActionDrawLineAngle.setSnapPoint, RS_ActionDrawLineAngle.setLength,
        RS_ActionDrawLineAngle.setInAngleBasis] <;>
      (try split_ifs) <;> simp_all

/-- C6: when the conversion helper rejects `val`, `setAngleToActionAndView(val)`
and `setLengthToActionAndView(val)` change nothing: the action (its UCS angle,
its length, its call history) and the field texts stay as they were, so no
default reaches the action.  When the helper accepts `val`, the action holds the
converted number and the field shows `fromDouble` of it. -/
theorem setToActionAndView_rejects_or_pushes [Zero α] [One α] (h : LC_ConvertHelpers α)
    (val : String) (w : QG_LineAngleOptions α) :
    ((h.toDoubleAngleDegrees val 0 0 false).1 = false →
        exec (setAngleToActionAndView h val) w = w
        ∧ (exec (setAngleToActionAndView h val) w).m_action.ucsAngleDegrees
            = w.m_action.ucsAngleDegrees
        ∧ (exec (setAngleToActionAndView h val) w).m_action.calls = w.m_action.calls
        ∧ (exec (setAngleToActionAndView h val) w).ui.leAngle_text = w.ui.leAngle_text)
    ∧ ((h.toDouble val 0 1 false).1 = false →
        exec (setLengthToActionAndView h val) w = w
        ∧ (exec (setLengthToActionAndView h val) w).m_action.length = w.m_action.length
        ∧ (exec (setLengthToActionAndView h val) w).m_action.calls = w.m_action.calls
        ∧ (exec (setLengthToActionAndView h val) w).ui.leLength_text = w.ui.leLength_text)
    ∧ ((h.toDoubleAngleDegrees val 0 0 false).1 = true →
        (exec (setAngleToActionAndView h val) w).m_action.ucsAngleDegrees
            = (h.toDoubleAngleDegrees val 0 0 false).2
        ∧ (exec (setAngleToActionAndView h val) w).m_action.calls
            = w.m_action.calls
              ++ [ActionCall.setUcsAngleDegrees (h.toDoubleAngleDegrees val 0 0 false).2]
        ∧ (exec (setAngleToActionAndView h val) w).ui.leAngle_text
            = h.fromDouble (h.toDoubleAngleDegrees val 0 0 false).2)
    ∧ ((h.toDouble val 0 1 false).1 = true →
        (exec (setLengthToActionAndView h val) w).m_action.length = (h.toDouble val 0 1 false).2
        ∧ (exec (setLengthToActionAndView h val) w).m_action.calls
            = w.m_action.calls ++ [ActionCall.setLength (h.toDouble val 0 1 false).2]
        ∧ (exec (setLengthToActionAndView h val) w).ui.leLength_text
            = h.fromDouble (h.toDouble val 0 1 false).2) := by
  refine ⟨?_, ?_, ?_, ?_⟩ <;> intro hh <;>
    simp [exec, StateT.run, run_setAngleToActionAndView, run_setLengthToActionAndView, hh,
      RS_ActionDrawLineAngle.setUcsAngleDegrees, RS_ActionDrawLineAngle.setLength]

/-- Witness for C6: the sample helper rejects "abc" and accepts "30.0" as 30,
which `fromDouble` shows as "30". -/
theorem setToActionAndView_rejects_or_pushes_witness :
    exec (setAngleToActionAndView sampleHelpers "abc") samplePanel = samplePanel
    ∧ exec (setLengthToActionAndView sampleHelpers "abc") samplePanel = samplePanel
    ∧ (exec (setAngleToActionAndView sampleHelpers "30.0") samplePanel).ui.leAngle_text = "30"
    ∧ (exec (setLengthToActionAndView sampleHelpers "30.0") samplePanel).m_action.length = 30 :=
  ⟨((setToActionAndView_rejects_or_pushes sampleHelpers "abc" samplePanel).1 (by decide)).1,
   ((setToActionAndView_rejects_or_pushes sampleHelpers "abc" samplePanel).2.1 (by decide)).1,
   ((setToActionAndView_rejects_or_pushes sampleHelpers "30.0" samplePanel).2.2.1
      (by decide)).2.2,
   ((setToActionAndView_rejects_or_pushes sampleHelpers "30.0" samplePanel).2.2.2
      (by decide)).1⟩

/-- C7: saving and loading use the same keys.  When the action handed to
`doSetAction(a, false)` has the same `hasFixedAngle()` as the action of the
panel, the keys written by `doSaveSettings()` and the keys then read by
`doSetAction` are the same three, "InAnglesBasis" (fixed angle) or "Angle"
(free angle), then "Length", then "SnapPoint"; the loads on the saved store
return the length text, the snap-point index and the angle text (or the basis
flag) that were saved, and the action receives that snap point and that flag. -/
theorem doSaveSettings_doSetAction_round_trip [Zero α] [One α] (h : LC_ConvertHelpers α)
    (a : RS_ActionDrawLineAngle α) (w : QG_LineAngleOptions α)
    (hmode : a.fixedAngle = w.m_action.fixedAngle) :
    (exec doSaveSettings w).keysWritten
        = w.keysWritten
          ++ [if w.m_action.fixedAngle then "InAnglesBasis" else "Angle", "Length", "SnapPoint"]
    ∧ (exec (doSetAction h a false) (exec doSaveSettings w)).keysRead
        = w.keysRead
          ++ [if w.m_action.fixedAngle then "InAnglesBasis" else "Angle", "Length", "SnapPoint"]
    ∧ (exec doSaveSettings w).settings.load "Length" "10.0" = w.ui.leLength_text
    ∧ (exec doSaveSettings w).settings.loadInt "SnapPoint" 0 = w.ui.cbSnapPoint_currentIndex
    ∧ (w.m_action.fixedAngle = false →
        (exec doSaveSettings w).settings.load "Angle" "30.0" = w.ui.leAngle_text)
    ∧ (w.m_action.fixedAngle = true →
        (exec doSaveSettings w).settings.loadBool "InAnglesBasis" false
          = w.ui.cbForAnglesBasis_checked)
    ∧ (exec (doSetAction h a false) (exec doSaveSettings w)).m_action.snapPoint
        = w.ui.cbSnapPoint_currentIndex
    ∧ (w.m_action.fixedAngle = true →
        (exec (doSetAction h a false) (exec doSaveSettings w)).m_action.inAngleBasis
          = w.ui.cbForAnglesBasis_checked) := by
  have hLS : "Length" ≠ "SnapPoint" := by decide
  have hAL : "Angle" ≠ "Length" := by decide
  have hAS : "Angle" ≠ "SnapPoint" := by decide
  have hIL : "InAnglesBasis" ≠ "Length" := by decide
  have hIS : "InAnglesBasis" ≠ "SnapPoint" := by decide
  have hlen : (exec doSaveSettings w).settings.load "Length" "10.0" = w.ui.leLength_text := by
    simp [exec_doSaveSettings, SettingsStore.load, SettingsStore.find_save_other _ _ _ _ hLS,
      SettingsStore.find_save_same]
  have hsnap : (exec doSaveSettings w).settings.loadInt "SnapPoint" 0
      = w.ui.cbSnapPoint_currentIndex := by
    simp [exec_doSaveSettings, SettingsStore.loadInt, SettingsStore.find_save_same]
  have hang : w.m_action.fixedAngle = false →
      (exec doSaveSettings w).settings.load "Angle" "30.0" = w.ui.leAngle_text := by
    intro hf
    simp [exec_doSaveSettings, hf, SettingsStore.load, SettingsStore.find_save_other _ _ _ _ hAS,
      SettingsStore.find_save_other _ _ _ _ hAL, SettingsStore.find_save_same]
  have hbas : w.m_action.fixedAngle = true →
      (exec doSaveSettings w).settings.loadBool "InAnglesBasis" false
        = w.ui.cbForAnglesBasis_checked := by
    intro hf
    simp [exec_doSaveSettings, hf, SettingsStore.loadBool,
      SettingsStore.find_save_other _ _ _ _ hIS, SettingsStore.find_save_other _ _ _ _ hIL,
      SettingsStore.find_save_same]
  have hkr : (exec doSaveSettings w).keysRead = w.keysRead := by
    simp [exec_doSaveSettings]
  have h5 := doSetAction_loads_fields h a (exec doSaveSettings w)
  refine ⟨by simp [exec_doSaveSettings], ?_, hlen, hsnap, hang, hbas, ?_, ?_⟩
  · rw [h5.1, hkr, hmode]
  · rw [h5.2.1, hsnap]
  · intro hf
    rw [h5.2.2 (hmode.trans hf), hbas hf]

/-- Witness for C7: the sample panel holds a free-angle action; after saving,
`doSetAction` with the sample free-angle action reads its snap point 1 back, and
the saved length and angle texts are loaded again.  The fixed-angle panel loads
its checked basis flag again. -/
theorem doSaveSettings_doSetAction_round_trip_witness :
    (exec (doSetAction sampleHelpers sampleFreeAction false)
        (exec doSaveSettings samplePanel)).m_action.snapPoint = 1
    ∧ (exec doSaveSettings samplePanel).settings.load "Length" "10.0" = "7"
    ∧ (exec doSaveSettings samplePanel).settings.load "Angle" "30.0" = "45"
    ∧ (exec doSaveSettings sampleFixedPanel).settings.loadBool "InAnglesBasis" false = true
    ∧ (exec (doSetAction sampleHelpers sampleFixedAction false)
        (exec doSaveSettings sampleFixedPanel)).m_action.inAngleBasis = true :=
  ⟨(doSaveSettings_doSetAction_round_trip sampleHelpers sampleFreeAction samplePanel
      rfl).2.2.2.2.2.2.1,
   (doSaveSettings_doSetAction_round_trip sampleHelpers sampleFreeAction samplePanel
      rfl).2.2.1,
   (doSaveSettings_doSetAction_round_trip sampleHelpers sampleFreeAction samplePanel
      rfl).2.2.2.2.1 rfl,
   (doSaveSettings_doSetAction_round_trip sampleHelpers sampleFixedAction sampleFixedPanel
      rfl).2.2.2.2.2.1 rfl,
   (doSaveSettings_doSetAction_round_trip sampleHelpers sampleFixedAction sampleFixedPanel
      rfl).2.2.2.2.2.2.2 rfl⟩

/-- C8 at a failing input: the store keeps the text "abc" under "Length", the
helper rejects it, the length field shows "7" before the call; `doSetAction`
leaves the length of the action at 7 but the length field shows "abc"
afterwards.  The same happens to the angle field with "abc" under "Angle". -/
theorem doSetAction_rejected_text_reaches_field :
    malformedLengthPanel.settings.load "Length" "10.0" = "abc"
    ∧ (sampleHelpers.toDouble "abc" 0 1 false).1 = false
    ∧ malformedLengthPanel.ui.leLength_text = "7"
    ∧ (exec (doSetAction sampleHelpers sampleFreeAction false)
          malformedLengthPanel).m_action.length = sampleFreeAction.length
    ∧ (exec (doSetAction sampleHelpers sampleFreeAction false)
          malformedLengthPanel).ui.leLength_text = "abc"
    ∧ malformedAnglePanel.settings.load "Angle" "30.0" = "abc"
    ∧ (sampleHelpers.toDoubleAngleDegrees "abc" 0 0 false).1 = false
    ∧ malformedAnglePanel.ui.leAngle_text = "45"
    ∧ (exec (doSetAction sampleHelpers sampleFreeAction false)
          malformedAnglePanel).m_action.ucsAngleDegrees = sampleFreeAction.ucsAngleDegrees
    ∧ (exec (doSetAction sampleHelpers sampleFreeAction false)
          malformedAnglePanel).ui.leAngle_text = "abc" := by
  decide

/-- C9: `checkActionRttiValid(t)` is true exactly for the three line-angle
action types and false for every other one. -/
theorem checkActionRttiValid_iff (t : RS2.ActionType) :
    (checkActionRttiValid t = true ↔
        t = RS2.ActionType.ActionDrawLineAngle
        ∨ t = RS2.ActionType.ActionDrawLineHorizontal
        ∨ t = RS2.ActionType.ActionDrawLineVertical)
    ∧ (checkActionRttiValid t = false ↔
        t ≠ RS2.ActionType.ActionDrawLineAngle
        ∧ t ≠ RS2.ActionType.ActionDrawLineHorizontal
        ∧ t ≠ RS2.ActionType.ActionDrawLineVertical) := by
  cases t <;> simp [checkActionRttiValid]

end QG_LineAngleOptions

end LibreCAD
